import Mathlib

/-!
Shallow embedding of the workflow orchestration core of the sast-ai-agent
repository: the conversation-state data model, the RAG assembly
(src/agents/rag_agent.py), the research assembly
(src/agents/research_agent.py) and the unified router
(src/agents/unified_chat.py).  LLM/search delegates are opaque function
parameters; Python exceptions are modelled by Option/Except.
-/

namespace Nexus

/-- Role of a chat message (`HumanMessage` / `AIMessage` / `ToolMessage`). -/
inductive Role where
  | user
  | assistant
  | tool
deriving DecidableEq, Repr

/-- A chat message: role plus textual content. -/
structure Message where
  role : Role
  content : String
deriving DecidableEq, Repr

/-- Whether the first character list is a prefix of the second. -/
def isPrefixList : List Char → List Char → Bool
  | [], _ => true
  | _ :: _, [] => false
  | a :: as, b :: bs => a == b && isPrefixList as bs

/-- Whether `pat` occurs as a contiguous sublist. -/
def containsChars (pat : List Char) : List Char → Bool
  | [] => isPrefixList pat []
  | c :: rest => isPrefixList pat (c :: rest) || containsChars pat rest

/-- Fuel-driven worker for `pySplit`: accumulate the current piece in
reverse and cut whenever the separator matches. -/
def splitCharsAux (sep : List Char) : Nat → List Char → List Char → List (List Char)
  | 0, acc, rest => [acc.reverse ++ rest]
  | fuel + 1, acc, rest =>
    match rest with
    | [] => [acc.reverse]
    | c :: cs =>
      if isPrefixList sep rest then
        acc.reverse :: splitCharsAux sep fuel [] (rest.drop sep.length)
      else
        splitCharsAux sep fuel (c :: acc) cs

/-- Python `s.split(sep)` for a non-empty separator. -/
def pySplit (s sep : String) : List String :=
  (splitCharsAux sep.data (s.data.length + 1) [] s.data).map (fun cs => ⟨cs⟩)

/-- Python `s.upper()`. -/
def pyUpper (s : String) : String := ⟨s.data.map Char.toUpper⟩

/-- Python `s.lower()`. -/
def pyLower (s : String) : String := ⟨s.data.map Char.toLower⟩

/-- Python `s.strip()`: drop leading and trailing whitespace. -/
def pyStrip (s : String) : String :=
  ⟨((s.data.dropWhile Char.isWhitespace).reverse.dropWhile Char.isWhitespace).reverse⟩

/-- Python `s.replace(old, new)`: replace every occurrence. -/
def pyReplace (s old new : String) : String :=
  String.intercalate new (pySplit s old)

/-- Python `pat in s` substring test for a non-empty pattern. -/
def containsSub (s pat : String) : Bool :=
  containsChars pat.data s.data

/-- The user-role messages of a list, in order
(`[msg for msg in state["messages"] if isinstance(msg, HumanMessage)]`). -/
def userMessages (msgs : List Message) : List Message :=
  msgs.filter (fun m => m.role == Role.user)

/-- Python `messages[-1].content` (None models the IndexError on an empty list). -/
def lastContent (msgs : List Message) : Option String :=
  msgs.getLast?.map Message.content

/-- The query-selection snippet shared by `_evaluate_documents`,
`_synthesize_answer` and `_query_rewriter` in src/agents/rag_agent.py:
use `messages[current_query_index]` when the index is in range, else fall
back to the last user message, else to the last message of any role. -/
def selectQuestion (idx : Nat) (msgs : List Message) : Option String :=
  if idx < msgs.length then
    (msgs.get? idx).map Message.content
  else
    match (userMessages msgs).getLast? with
    | some m => some m.content
    | none => lastContent msgs

/-! ## RAG assembly state (class AgenticRAGState) -/

/-- State of the agentic RAG workflow (rag_agent.py, `AgenticRAGState`). -/
structure AgenticRAGState where
  messages : List Message
  feedback : String
  is_sufficient : Bool
  retry_count : Nat
  max_retries : Nat
  current_query_index : Nat
deriving DecidableEq, Repr

/-- A partial state update returned by a RAG node: `messages` is merged by
append (the `add_messages` reducer), every other field is last-write-wins
and only overwritten when named (`some`). -/
structure RAGUpdate where
  messages : List Message := []
  feedback : Option String := none
  is_sufficient : Option Bool := none
  retry_count : Option Nat := none
  max_retries : Option Nat := none
  current_query_index : Option Nat := none
deriving DecidableEq, Repr

/-- LangGraph merge of a partial update into the RAG state. -/
def mergeRAG (s : AgenticRAGState) (u : RAGUpdate) : AgenticRAGState where
  messages := s.messages ++ u.messages
  feedback := u.feedback.getD s.feedback
  is_sufficient := u.is_sufficient.getD s.is_sufficient
  retry_count := u.retry_count.getD s.retry_count
  max_retries := u.max_retries.getD s.max_retries
  current_query_index := u.current_query_index.getD s.current_query_index

/-- Feedback text set when the retry ceiling forces synthesis. -/
def evalForcedFeedback : String :=
  "Maximum retries reached. Using available documents."

/-- Node `_evaluate_documents`: when `retry_count >= max_retries`, force
`is_sufficient = True` without consulting the evaluator delegate; otherwise
delegate the relevance judgment.  The delegate takes the question and the
retrieved documents and returns `(is_sufficient, feedback)`. -/
def evaluateDocuments (evaluator : String → String → Bool × String)
    (s : AgenticRAGState) : Option RAGUpdate :=
  if s.max_retries ≤ s.retry_count then
    some { is_sufficient := some true, feedback := some evalForcedFeedback }
  else do
    let q ← selectQuestion s.current_query_index s.messages
    let docs ← lastContent s.messages
    let ev := evaluator q docs
    pure { is_sufficient := some ev.1, feedback := some ev.2 }

/-- Node `_synthesize_answer`: produce the final answer from the fixed query and
the last message's content via the synthesizer delegate. -/
def synthesizeAnswer (synth : String → String → String)
    (s : AgenticRAGState) : Option RAGUpdate := do
  let q ← selectQuestion s.current_query_index s.messages
  let docs ← lastContent s.messages
  pure { messages := [⟨Role.assistant, synth q docs⟩] }

/-- Node `_query_rewriter`: append one reformulated query message and increment
`retry_count`.  The delegate takes question, feedback and documents. -/
def queryRewriter (rewriter : String → String → String → String)
    (s : AgenticRAGState) : Option RAGUpdate := do
  let q ← selectQuestion s.current_query_index s.messages
  let docs ← lastContent s.messages
  pure { messages := [⟨Role.assistant, rewriter q s.feedback docs⟩],
         retry_count := some (s.retry_count + 1) }

/-- Node names of the RAG graph built in `_create_graph`. -/
inductive RAGNode where
  | start
  | generate
  | retrieve
  | evaluate
  | synthesize
  | rewrite
  | terminal
deriving DecidableEq, Repr

/-- Unconditional edges of the RAG graph (`add_edge` calls). -/
def ragUncondEdge : RAGNode → Option RAGNode
  | RAGNode.start => some RAGNode.generate
  | RAGNode.retrieve => some RAGNode.evaluate
  | RAGNode.rewrite => some RAGNode.generate
  | RAGNode.synthesize => some RAGNode.terminal
  | _ => none

/-- The conditional edge out of `evaluate_documents`:
`"synthesize_answer" if x["is_sufficient"] else "query_rewriter"`. -/
def evaluateRouter (s : AgenticRAGState) : RAGNode :=
  if s.is_sufficient then RAGNode.synthesize else RAGNode.rewrite

/-! ## process_message plumbing shared by both pipelines -/

/-- One entry of the caller-supplied chat history: a role string and text. -/
structure HistEntry where
  role : String
  content : String
deriving DecidableEq, Repr

/-- Method `_convert_history_to_messages`: keep `"user"`/`"assistant"` entries,
drop anything else. -/
def convertHistory (h : List HistEntry) : List Message :=
  h.filterMap (fun e =>
    if e.role = "user" then some ⟨Role.user, e.content⟩
    else if e.role = "assistant" then some ⟨Role.assistant, e.content⟩
    else none)

/-- Initial RAG state built by `AgenticRAGChat.process_message`: history
messages plus the new query, with `current_query_index` recorded as the
position of the newly appended query. -/
def ragInitialState (message : String) (history : List HistEntry) :
    AgenticRAGState :=
  let hm := convertHistory history
  { messages := hm ++ [⟨Role.user, message⟩],
    feedback := "",
    is_sufficient := false,
    retry_count := 0,
    max_retries := 3,
    current_query_index := hm.length }

/-- Fallback answer when the final state has no messages. -/
def ragNoAnswerMsg : String :=
  "I couldn\x27t find relevant information to answer your question."

/-- The tailored message returned when the recursion (step-ceiling) limit
is hit, from the `except` branch of `AgenticRAGChat.process_message`. -/
def ragExhaustionMsg : String :=
  "I had difficulty finding the exact information you\x27re looking for in the documents. Based on the available documents, I can see references to various topics, but I couldn\x27t find specific details. You might want to try asking about a specific aspect."

/-- The generic error message of `AgenticRAGChat.process_message`. -/
def ragGenericErrorMsg (e : String) : String :=
  "I encountered an error while searching for information: " ++ e

/-- Result handling of `AgenticRAGChat.process_message`: the graph outcome
is either a final message list or a raised error string; the method always
returns a string, with step-ceiling (recursion) errors mapped to a
distinct tailored message. -/
def ragProcessResult (outcome : Except String (List Message)) : String :=
  match outcome with
  | Except.ok msgs =>
      match msgs.getLast? with
      | some m => m.content
      | none => ragNoAnswerMsg
  | Except.error e =>
      if containsSub (pyLower e) "recursion" then ragExhaustionMsg
      else ragGenericErrorMsg e

/-! ## Research assembly (src/agents/research_agent.py) -/

/-- The `ResearchQuestion` pydantic model. -/
structure ResearchQuestion where
  title : String
  description : String
  completed : Bool
deriving DecidableEq, Repr

/-- The `ResearchPlan` pydantic model. -/
structure ResearchPlan where
  topic : String
  questions : List ResearchQuestion
  current_question_index : Nat
deriving DecidableEq, Repr

/-- One entry of `report.detailed_analysis`:
`{"title": ..., "content": ..., "sources": [...]}` with `content = None`
until the matching research step fills it. -/
structure AnalysisEntry where
  title : String
  content : Option String
  sources : List String
deriving DecidableEq, Repr

/-- The `Report` pydantic model. -/
structure Report where
  executive_summary : Option String := none
  key_findings : Option String := none
  detailed_analysis : List AnalysisEntry := []
  limitations : Option String := none
deriving DecidableEq, Repr

/-- The `ResearchState` of the deep-research workflow. -/
structure ResearchState where
  messages : List Message
  research_plan : Option ResearchPlan
  report : Option Report
  next_step : String
deriving DecidableEq, Repr

/-- A partial update returned by a research node: `messages` appends,
`research_plan`/`report`/`next_step` overwrite only when named. -/
structure ResearchUpdate where
  messages : List Message := []
  research_plan : Option ResearchPlan := none
  report : Option Report := none
  next_step : Option String := none
deriving DecidableEq, Repr

/-- LangGraph merge of a partial update into the research state. -/
def mergeResearch (s : ResearchState) (u : ResearchUpdate) : ResearchState where
  messages := s.messages ++ u.messages
  research_plan :=
    match u.research_plan with
    | some p => some p
    | none => s.research_plan
  report :=
    match u.report with
    | some r => some r
    | none => s.report
  next_step := u.next_step.getD s.next_step

/-- The empty report section created at plan time for a question. -/
def emptyEntry (q : ResearchQuestion) : AnalysisEntry :=
  { title := q.title, content := none, sources := [] }

/-- Message text appended by the research manager node. -/
def planMessage (n : Nat) : String :=
  "Research plan created with " ++ toString n ++ " sections to investigate."

/-- Node `research_manager_node`: take the topic from the last user message
(falling back to the last message), let the manager delegate produce the
plan, and create a report with one empty section per planned question. -/
def researchManagerNode (manager : String → ResearchPlan)
    (s : ResearchState) : Option ResearchUpdate := do
  let topic ←
    match (userMessages s.messages).getLast? with
    | some m => some m.content
    | none => lastContent s.messages
  let plan := manager topic
  let report : Report := { detailed_analysis := plan.questions.map emptyEntry }
  pure { messages := [⟨Role.assistant, planMessage plan.questions.length⟩],
         research_plan := some plan,
         report := some report }

/-- Source extraction in `specialized_research_node`: the stripped lines of
the content that contain both `"http"` and `"://"`. -/
def extractSources (content : String) : List String :=
  ((pySplit content "\n").filter
    (fun l => containsSub l "http" && containsSub l "://")).map pyStrip

/-- Message text appended after researching one section. -/
def progressMessage (title : String) : String :=
  "Completed research for section: " ++ title

/-- Node `specialized_research_node`: when `current_question_index` is within
the question list, research exactly that question via the agent delegate
(title, description ↦ section content), mark it completed, fill the
matching report section with content and extracted sources, and advance
the index by one; when the index is past the end, return the empty update.
`none` models the Python assertion/IndexError failures (missing plan or
report, report section list shorter than the index). -/
def specializedResearchNode (agent : String → String → String)
    (s : ResearchState) : Option ResearchUpdate := do
  let plan ← s.research_plan
  let idx := plan.current_question_index
  if h : idx < plan.questions.length then
    let q := plan.questions.get ⟨idx, h⟩
    let content := agent q.title q.description
    let sources := extractSources content
    let plan' : ResearchPlan :=
      { plan with
        questions := plan.questions.set idx { q with completed := true },
        current_question_index := idx + 1 }
    let report ← s.report
    let entry ← report.detailed_analysis.get? idx
    let report' : Report :=
      { report with
        detailed_analysis := report.detailed_analysis.set idx
          { entry with content := some content, sources := sources } }
    pure { messages := [⟨Role.assistant, progressMessage q.title⟩],
           research_plan := some plan',
           report := some report' }
  else
    pure {}

/-- Message appended when all questions are done. -/
def evalDoneMessage : String :=
  "All research sections completed. Finalizing report..."

/-- Message appended when more research is needed. -/
def evalMoveMessage (title : String) : String :=
  "Moving to research section: " ++ title

/-- Node `evaluator_node`: set `next_step` to `"finalize"` when every question
has been researched (`current_question_index >= len(questions)`), else to
`"research"`. -/
def evaluatorNode (s : ResearchState) : Option ResearchUpdate := do
  let plan ← s.research_plan
  if h : plan.current_question_index < plan.questions.length then
    let title := (plan.questions.get ⟨plan.current_question_index, h⟩).title
    pure { messages := [⟨Role.assistant, evalMoveMessage title⟩],
           next_step := some "research" }
  else
    pure { messages := [⟨Role.assistant, evalDoneMessage⟩],
           next_step := some "finalize" }

/-- The conditional-edge table out of `evaluate` in `_create_workflow`,
keyed by `x["next_step"]`; an unmapped label is a routing error. -/
def researchConditionalEdge (label : String) : Option String :=
  if label = "research" then some "specialized_research"
  else if label = "finalize" then some "finalizer"
  else none

/-- The `detailed_analysis` text handed to the finalizer delegate: the
filled sections (content not None) joined by blank lines. -/
def detailedAnalysisText (report : Report) : String :=
  String.intercalate "\n\n"
    (report.detailed_analysis.filterMap
      (fun entry => entry.content.map
        (fun c => "## " ++ entry.title ++ "\n" ++ c)))

/-- Python `x or "N/A"`: `None` and the empty string are falsy. -/
def orNA (o : Option String) : String :=
  match o with
  | some s => if s = "" then "N/A" else s
  | none => "N/A"

/-- The formatted blocks `_format_report` emits for one analysis section:
nothing when the content is falsy, else the section (and, when sources are
non-empty, a sources block). -/
def entryBlocks (entry : AnalysisEntry) : List String :=
  match entry.content with
  | some c =>
      if c = "" then []
      else
        ("### " ++ entry.title ++ "\n" ++ c) ::
          (if entry.sources = [] then []
           else ["**Sources:**\n" ++
                 String.intercalate "\n" (entry.sources.map (fun src => "- " ++ src))])
  | none => []

/-- Method `_format_report`: assemble the final report message, substituting the
"N/A" placeholder for absent summary/findings/limitations fields. -/
def formatReport (report : Report) : Message :=
  ⟨Role.assistant,
   String.intercalate "\n\n"
     (["# Research Report\n",
       "## Executive Summary\n" ++ orNA report.executive_summary,
       "## Key Findings\n" ++ orNA report.key_findings,
       "## Detailed Analysis"]
      ++ report.detailed_analysis.flatMap entryBlocks
      ++ ["## Limitations and Further Research\n" ++ orNA report.limitations])⟩

/-- Node `finalizer_node`: hand topic and concatenated analysis to the
finalizer delegate, split its output on blank lines, and only when at
least three parts result fill the summary/findings/limitations fields
(the report object is mutated in place, so the update carries the
possibly-updated report); always append the formatted report message. -/
def finalizerNode (finalize : String → String → String)
    (s : ResearchState) : Option ResearchUpdate := do
  let plan ← s.research_plan
  let report ← s.report
  let final_sections := finalize plan.topic (detailedAnalysisText report)
  let sections := pySplit final_sections "\n\n"
  let report' : Report :=
    if 3 ≤ sections.length then
      { report with
        executive_summary :=
          some (pyStrip (pyReplace (sections.getD 0 "") "# Executive Summary" "")),
        key_findings :=
          some (pyStrip (pyReplace (sections.getD 1 "") "# Key Findings" "")),
        limitations :=
          some (pyStrip (pyReplace (sections.getD 2 "") "# Limitations and Further Research" "")) }
    else report
  pure { messages := [formatReport report'], report := some report' }

/-- Initial research state built by `DeepResearchChat.process_message`. -/
def researchInitialState (message : String) (history : List HistEntry) :
    ResearchState :=
  { messages := convertHistory history ++ [⟨Role.user, message⟩],
    research_plan := none,
    report := none,
    next_step := "research_manager" }

/-- Result handling of `DeepResearchChat.process_message`: unlike the RAG
pipeline, `workflow.invoke` is not wrapped in try/except (only the report
file write is), so a workflow fault propagates to the caller; on success
the last message's content is returned (IndexError on an empty list). -/
def researchProcessResult (outcome : Except String (List Message)) :
    Except String String :=
  match outcome with
  | Except.ok msgs =>
      match msgs.getLast? with
      | some m => Except.ok m.content
      | none => Except.error "IndexError: list index out of range"
  | Except.error e => Except.error e

/-- State after the plan step of a run of the research pipeline: seed the
initial state and apply + merge the research-manager node. -/
def afterPlanState (manager : String → ResearchPlan)
    (message : String) (history : List HistEntry) : Option ResearchState := do
  let s := researchInitialState message history
  let u ← researchManagerNode manager s
  pure (mergeResearch s u)

/-- One research→evaluate round of the research loop. -/
def researchEvalStep (agent : String → String → String)
    (s : ResearchState) : Option ResearchState := do
  let u ← specializedResearchNode agent s
  let s1 := mergeResearch s u
  let v ← evaluatorNode s1
  pure (mergeResearch s1 v)

/-- Iterate `k` research→evaluate rounds. -/
def runResearchLoop (agent : String → String → String) :
    Nat → ResearchState → Option ResearchState
  | 0, s => some s
  | k + 1, s => do
      let s' ← researchEvalStep agent s
      runResearchLoop agent k s'

/-! ## Unified router (src/agents/unified_chat.py) -/

/-- The `QueryType` enum. -/
inductive QueryType where
  | simple_tool
  | agentic_rag
  | deep_research
  | sast
  | ssrf
  | general
deriving DecidableEq, Repr

/-- Method `_classify_query`: map the classifier delegate's output — or its
failure — to a query type; any trimmed-and-uppercased output other than
the five known labels, and any raised exception, yields GENERAL. -/
def classifyQuery (delegateOutcome : Except String String) : QueryType :=
  match delegateOutcome with
  | Except.error _ => QueryType.general
  | Except.ok content =>
      let c := pyUpper (pyStrip content)
      if c = "SIMPLE_TOOL" then QueryType.simple_tool
      else if c = "AGENTIC_RAG" then QueryType.agentic_rag
      else if c = "DEEP_RESEARCH" then QueryType.deep_research
      else if c = "SAST" then QueryType.sast
      else if c = "SSRF" then QueryType.ssrf
      else QueryType.general

/-- The dispatch in `UnifiedChat.process_message`: which sub-agent handles
each query type (SIMPLE_TOOL and GENERAL both go to the tool agent). -/
def routeQueryType : QueryType → String
  | QueryType.simple_tool => "tool_agent"
  | QueryType.agentic_rag => "rag_agent"
  | QueryType.deep_research => "research_agent"
  | QueryType.sast => "sast_agent"
  | QueryType.ssrf => "ssrf_agent"
  | QueryType.general => "tool_agent"

/-- The analysis entry as filled by the research step for question `q`:
the delegate's content for exactly that question, with its extracted
sources. -/
def filledEntry (agent : String → String → String) (q : ResearchQuestion) :
    AnalysisEntry :=
  { title := q.title,
    content := some (agent q.title q.description),
    sources := extractSources (agent q.title q.description) }

/-- The plan after the research step at index `k` for question `q`:
question `k` marked completed, index advanced by one. -/
def stepPlan (plan : ResearchPlan) (k : Nat) (q : ResearchQuestion) :
    ResearchPlan :=
  { plan with questions := plan.questions.set k { q with completed := true }, current_question_index := k + 1 }

/-- The report after the research step at index `k` for question `q`:
exactly section `k` replaced by the filled entry. -/
def stepReport (agent : String → String → String) (report : Report)
    (k : Nat) (q : ResearchQuestion) : Report :=
  { report with detailed_analysis :=
      report.detailed_analysis.set k (filledEntry agent q) }

/-- The full update the research step returns at index `k`. -/
def stepUpdate (agent : String → String → String) (plan : ResearchPlan)
    (report : Report) (k : Nat) (q : ResearchQuestion) : ResearchUpdate :=
  { messages := [⟨Role.assistant, progressMessage q.title⟩],
    research_plan := some (stepPlan plan k q),
    report := some (stepReport agent report k q) }

/-- Invariant of the research loop after `k` completed research rounds on
a plan over question list `qs`: the index is `k`, the first `k` questions
are marked completed, the first `k` report sections are filled with the
delegate output for their own question, and all later sections are still
empty. -/
def loopInvariant (agent : String → String → String)
    (qs : List ResearchQuestion) (k : Nat) (s : ResearchState) : Prop :=
  ∃ plan report,
    s.research_plan = some plan ∧ s.report = some report ∧
    plan.current_question_index = k ∧
    plan.questions.length = qs.length ∧
    report.detailed_analysis.length = qs.length ∧
    (∀ i, plan.questions.get? i =
      (qs.get? i).map (fun q => if i < k then { q with completed := true } else q)) ∧
    (∀ i, report.detailed_analysis.get? i =
      (qs.get? i).map (fun q => if i < k then filledEntry agent q else emptyEntry q))

/-! ## Helper lemmas -/

/-- A non-empty message list has a last content. -/
theorem lastContent_isSome {msgs : List Message} (h : msgs ≠ []) :
    ∃ c, lastContent msgs = some c := by
  cases hm : msgs.getLast? with
  | none => exact absurd (List.getLast?_eq_none_iff.mp hm) h
  | some m => exact ⟨m.content, by simp [lastContent, hm]⟩

/-- On a non-empty message list the shared query-selection snippet always
yields a question, whatever the index. -/
theorem selectQuestion_isSome {idx : Nat} {msgs : List Message}
    (h : msgs ≠ []) : ∃ q, selectQuestion idx msgs = some q := by
  unfold selectQuestion
  by_cases hlt : idx < msgs.length
  · exact ⟨(msgs.get ⟨idx, hlt⟩).content, by simp [hlt, List.get?_eq_get hlt]⟩
  · simp only [hlt, if_false]
    cases hu : (userMessages msgs).getLast? with
    | some m => exact ⟨m.content, rfl⟩
    | none =>
        obtain ⟨c, hc⟩ := lastContent_isSome h
        exact ⟨c, hc⟩

/-! ## Claim theorems -/

/-- C1: in the RAG pipeline, whenever `retry_count >= max_retries` the
evaluate step returns the forced update setting `is_sufficient := true`
without consulting the evaluator delegate (the result is the same for any
two delegates), and the router then takes the synthesis branch. -/
theorem c1_rag_retry_ceiling_forces_synthesis
    (ev1 ev2 : String → String → Bool × String) (s : AgenticRAGState)
    (h : s.max_retries ≤ s.retry_count) :
    evaluateDocuments ev1 s =
      some { is_sufficient := some true, feedback := some evalForcedFeedback } ∧
    evaluateDocuments ev1 s = evaluateDocuments ev2 s ∧
    (∀ u, evaluateDocuments ev1 s = some u →
      evaluateRouter (mergeRAG s u) = RAGNode.synthesize) := by
  have he : evaluateDocuments ev1 s =
      some { is_sufficient := some true, feedback := some evalForcedFeedback } := by
    simp [evaluateDocuments, h]
  refine ⟨he, by simp [evaluateDocuments, h], ?_⟩
  intro u hu
  rw [he] at hu
  cases hu
  simp [evaluateRouter, mergeRAG]

/-- C1 witness: for `max_retries = 3`, the evaluation with
`retry_count = 3` (after the 3rd rewrite) returns the forced sufficiency
update even for a delegate that judges the documents insufficient. -/
theorem c1_rag_retry_ceiling_witness :
    (3 : Nat) ≤ 3 ∧
    evaluateDocuments (fun _ _ => (false, "insufficient"))
      { messages := [⟨Role.user, "q"⟩], feedback := "", is_sufficient := false,
        retry_count := 3, max_retries := 3, current_query_index := 0 } =
      some { is_sufficient := some true, feedback := some evalForcedFeedback } :=
  ⟨by decide,
   (c1_rag_retry_ceiling_forces_synthesis
      (fun _ _ => (false, "insufficient")) (fun _ _ => (true, "fine"))
      { messages := [⟨Role.user, "q"⟩], feedback := "", is_sufficient := false,
        retry_count := 3, max_retries := 3, current_query_index := 0 }
      (by decide)).1⟩

/-- C5: the research evaluator routes to the research node exactly when
`current_question_index < len(questions)` and to the finalizer exactly
when the index has reached the question count. -/
theorem c5_evaluator_routing (s : ResearchState) (p : ResearchPlan)
    (hp : s.research_plan = some p) :
    ∃ u, evaluatorNode s = some u ∧
      (researchConditionalEdge (mergeResearch s u).next_step =
          some "specialized_research" ↔
        p.current_question_index < p.questions.length) ∧
      (researchConditionalEdge (mergeResearch s u).next_step = some "finalizer" ↔
        p.questions.length ≤ p.current_question_index) := by
  by_cases h : p.current_question_index < p.questions.length
  · refine ⟨{ messages := [⟨Role.assistant, evalMoveMessage (p.questions.get ⟨p.current_question_index, h⟩).title⟩], next_step := some "research" }, ?_, ?_, ?_⟩
    · simp [evaluatorNode, hp, h]
    · simp [mergeResearch, researchConditionalEdge, h]
    · simp only [mergeResearch, researchConditionalEdge]
      simp
      omega
  · refine ⟨{ messages := [⟨Role.assistant, evalDoneMessage⟩], next_step := some "finalize" }, ?_, ?_, ?_⟩
    · simp [evaluatorNode, hp, h]
    · simp [mergeResearch, researchConditionalEdge, h]
    · simp only [mergeResearch, researchConditionalEdge]
      simp
      omega

/-- C5 witness: with two questions both researched (index 2), the
evaluation immediately after the last question routes to the finalizer. -/
theorem c5_evaluator_routing_witness :
    ({ messages := [⟨Role.user, "t"⟩],
       research_plan := some ⟨"t", [⟨"Q1", "d1", true⟩, ⟨"Q2", "d2", true⟩], 2⟩,
       report := none, next_step := "research" } : ResearchState).research_plan =
      some ⟨"t", [⟨"Q1", "d1", true⟩, ⟨"Q2", "d2", true⟩], 2⟩ ∧
    ∃ u, evaluatorNode
        { messages := [⟨Role.user, "t"⟩],
          research_plan := some ⟨"t", [⟨"Q1", "d1", true⟩, ⟨"Q2", "d2", true⟩], 2⟩,
          report := none, next_step := "research" } = some u ∧
      (researchConditionalEdge
          (mergeResearch
            { messages := [⟨Role.user, "t"⟩],
              research_plan := some ⟨"t", [⟨"Q1", "d1", true⟩, ⟨"Q2", "d2", true⟩], 2⟩,
              report := none, next_step := "research" } u).next_step =
          some "specialized_research" ↔ (2 : Nat) < 2) ∧
      (researchConditionalEdge
          (mergeResearch
            { messages := [⟨Role.user, "t"⟩],
              research_plan := some ⟨"t", [⟨"Q1", "d1", true⟩, ⟨"Q2", "d2", true⟩], 2⟩,
              report := none, next_step := "research" } u).next_step =
          some "finalizer" ↔ (2 : Nat) ≤ 2) :=
  ⟨rfl,
   c5_evaluator_routing
     { messages := [⟨Role.user, "t"⟩],
       research_plan := some ⟨"t", [⟨"Q1", "d1", true⟩, ⟨"Q2", "d2", true⟩], 2⟩,
       report := none, next_step := "research" }
     ⟨"t", [⟨"Q1", "d1", true⟩, ⟨"Q2", "d2", true⟩], 2⟩ rfl⟩

/-- C10: any classifier output whose trimmed, uppercased form is none of
the five known labels — and any classifier failure — yields the GENERAL
query type, which the unified router dispatches to the tool agent. -/
theorem c10_unknown_classification_defaults_to_general (c e : String)
    (h1 : pyUpper (pyStrip c) ≠ "SIMPLE_TOOL")
    (h2 : pyUpper (pyStrip c) ≠ "AGENTIC_RAG")
    (h3 : pyUpper (pyStrip c) ≠ "DEEP_RESEARCH")
    (h4 : pyUpper (pyStrip c) ≠ "SAST")
    (h5 : pyUpper (pyStrip c) ≠ "SSRF") :
    classifyQuery (Except.ok c) = QueryType.general ∧
    classifyQuery (Except.error e) = QueryType.general ∧
    routeQueryType QueryType.general = "tool_agent" := by
  refine ⟨?_, rfl, rfl⟩
  simp [classifyQuery, h1, h2, h3, h4, h5]

/-- C10 witness: the concrete output `" hello "` is not one of the five
labels and classifies as GENERAL; so does a raised exception. -/
theorem c10_unknown_classification_witness :
    (pyUpper (pyStrip " hello ") ≠ "SIMPLE_TOOL" ∧
     pyUpper (pyStrip " hello ") ≠ "AGENTIC_RAG" ∧
     pyUpper (pyStrip " hello ") ≠ "DEEP_RESEARCH" ∧
     pyUpper (pyStrip " hello ") ≠ "SAST" ∧
     pyUpper (pyStrip " hello ") ≠ "SSRF") ∧
    classifyQuery (Except.ok " hello ") = QueryType.general ∧
    classifyQuery (Except.error "connection reset") = QueryType.general ∧
    routeQueryType QueryType.general = "tool_agent" :=
  ⟨⟨by decide, by decide, by decide, by decide, by decide⟩,
   c10_unknown_classification_defaults_to_general " hello " "connection reset"
     (by decide) (by decide) (by decide) (by decide) (by decide)⟩

/-- The tailored step-ceiling message differs from every instance of the
generic error message: their texts diverge by the fourth character. -/
theorem exhaustionMsg_ne_genericMsg (e : String) :
    ragExhaustionMsg ≠ ragGenericErrorMsg e := by
  intro h
  have hd : ragExhaustionMsg.data =
      ("I encountered an error while searching for information: " : String).data
        ++ e.data := by
    have := congrArg String.data h
    simpa [ragGenericErrorMsg] using this
  have h4 : ragExhaustionMsg.data.take 4 = ['I', ' ', 'h', 'a'] := by decide
  rw [hd, List.take_append_of_le_length (by decide)] at h4
  exact absurd h4 (by decide)

/-- C4 counterexample: the research pipeline's `process_message` does not
convert a workflow fault into a descriptive answer string — the raw error
propagates to the caller, refuting the claim for that pipeline. -/
theorem c4_research_propagates_fault_counterexample :
    researchProcessResult (Except.error "GraphRecursionError: recursion limit reached") =
      Except.error "GraphRecursionError: recursion limit reached" := rfl

/-- C4 amended: the RAG pipeline's `process_message` returns the final
state's last message content, or a descriptive error string on failure,
with step-ceiling (recursion) exhaustion surfaced as a tailored message
distinct from the generic one; the research pipeline's `process_message`
returns the last message's content on success but propagates workflow
faults to the caller unconverted. -/
theorem c4_pipeline_boundary_behavior (msgs : List Message) (m : Message)
    (e : String) :
    ragProcessResult (Except.ok (msgs ++ [m])) = m.content ∧
    (containsSub (pyLower e) "recursion" = true →
      ragProcessResult (Except.error e) = ragExhaustionMsg) ∧
    (containsSub (pyLower e) "recursion" = false →
      ragProcessResult (Except.error e) = ragGenericErrorMsg e) ∧
    ragExhaustionMsg ≠ ragGenericErrorMsg e ∧
    researchProcessResult (Except.ok (msgs ++ [m])) = Except.ok m.content ∧
    researchProcessResult (Except.error e) = Except.error e := by
  refine ⟨?_, ?_, ?_, exhaustionMsg_ne_genericMsg e, ?_, rfl⟩
  · simp [ragProcessResult, List.getLast?_concat]
  · intro hc; simp [ragProcessResult, hc]
  · intro hc; simp [ragProcessResult, hc]
  · simp [researchProcessResult, List.getLast?_concat]

/-- C4 amended witness: concrete final state and concrete recursion /
non-recursion errors exercising each boundary behavior. -/
theorem c4_pipeline_boundary_witness :
    ragProcessResult (Except.ok ([⟨Role.user, "q"⟩] ++ [⟨Role.assistant, "a"⟩])) = "a" ∧
    (containsSub (pyLower "GraphRecursionError: recursion limit of 30 reached") "recursion" = true →
      ragProcessResult (Except.error "GraphRecursionError: recursion limit of 30 reached") =
        ragExhaustionMsg) ∧
    (containsSub (pyLower "GraphRecursionError: recursion limit of 30 reached") "recursion" = false →
      ragProcessResult (Except.error "GraphRecursionError: recursion limit of 30 reached") =
        ragGenericErrorMsg "GraphRecursionError: recursion limit of 30 reached") ∧
    ragExhaustionMsg ≠ ragGenericErrorMsg "GraphRecursionError: recursion limit of 30 reached" ∧
    researchProcessResult (Except.ok ([⟨Role.user, "q"⟩] ++ [⟨Role.assistant, "a"⟩])) =
      Except.ok "a" ∧
    researchProcessResult (Except.error "GraphRecursionError: recursion limit of 30 reached") =
      Except.error "GraphRecursionError: recursion limit of 30 reached" :=
  c4_pipeline_boundary_behavior [⟨Role.user, "q"⟩] ⟨Role.assistant, "a"⟩
    "GraphRecursionError: recursion limit of 30 reached"

/-- C8: every rewrite-step invocation on a reachable state (non-empty
message log) appends exactly one reformulated-query message, keeps every
earlier message in place, increments `retry_count` by one, leaves all
other fields unchanged, and the graph's unconditional edge returns
control to the generate step. -/
theorem c8_rewrite_appends_and_increments
    (rewriter : String → String → String → String) (s : AgenticRAGState)
    (hne : s.messages ≠ []) :
    ∃ q docs,
      selectQuestion s.current_query_index s.messages = some q ∧
      lastContent s.messages = some docs ∧
      queryRewriter rewriter s =
        some { messages := [⟨Role.assistant, rewriter q s.feedback docs⟩],
               retry_count := some (s.retry_count + 1) } ∧
      mergeRAG s { messages := [⟨Role.assistant, rewriter q s.feedback docs⟩],
                   retry_count := some (s.retry_count + 1) } =
        { s with messages := s.messages ++ [⟨Role.assistant, rewriter q s.feedback docs⟩],
                 retry_count := s.retry_count + 1 } ∧
      ragUncondEdge RAGNode.rewrite = some RAGNode.generate := by
  obtain ⟨q, hq⟩ := @selectQuestion_isSome s.current_query_index s.messages hne
  obtain ⟨docs, hdocs⟩ := lastContent_isSome hne
  refine ⟨q, docs, hq, hdocs, ?_, rfl, rfl⟩
  simp [queryRewriter, hq, hdocs]

/-- C8 witness: a concrete two-message state on which the rewrite step
appends one message and bumps the retry count from 1 to 2. -/
theorem c8_rewrite_witness :
    ([⟨Role.user, "q"⟩, ⟨Role.tool, "docs"⟩] : List Message) ≠ [] ∧
    ∃ q docs,
      selectQuestion 0 [⟨Role.user, "q"⟩, ⟨Role.tool, "docs"⟩] = some q ∧
      lastContent [⟨Role.user, "q"⟩, ⟨Role.tool, "docs"⟩] = some docs ∧
      queryRewriter (fun a b c => a ++ b ++ c)
        { messages := [⟨Role.user, "q"⟩, ⟨Role.tool, "docs"⟩], feedback := "fb",
          is_sufficient := false, retry_count := 1, max_retries := 3,
          current_query_index := 0 } =
        some { messages := [⟨Role.assistant, (fun a b c => a ++ b ++ c) q "fb" docs⟩],
               retry_count := some 2 } ∧
      mergeRAG
        { messages := [⟨Role.user, "q"⟩, ⟨Role.tool, "docs"⟩], feedback := "fb",
          is_sufficient := false, retry_count := 1, max_retries := 3,
          current_query_index := 0 }
        { messages := [⟨Role.assistant, (fun a b c => a ++ b ++ c) q "fb" docs⟩],
          retry_count := some 2 } =
        { messages := [⟨Role.user, "q"⟩, ⟨Role.tool, "docs"⟩] ++
            [⟨Role.assistant, (fun a b c => a ++ b ++ c) q "fb" docs⟩],
          feedback := "fb", is_sufficient := false, retry_count := 2,
          max_retries := 3, current_query_index := 0 } ∧
      ragUncondEdge RAGNode.rewrite = some RAGNode.generate :=
  ⟨by decide,
   c8_rewrite_appends_and_increments (fun a b c => a ++ b ++ c)
     { messages := [⟨Role.user, "q"⟩, ⟨Role.tool, "docs"⟩], feedback := "fb",
       is_sufficient := false, retry_count := 1, max_retries := 3,
       current_query_index := 0 }
     (by decide)⟩

/-- C9: on any state with a non-empty message log whose
`current_query_index` is out of range, the shared query selection falls
back to the last user-role message, or to the last message of any role if
no user message exists, and the evaluate, synthesize and rewrite steps
all succeed (no out-of-range failure). -/
theorem c9_out_of_range_index_fallback (s : AgenticRAGState)
    (hne : s.messages ≠ [])
    (hoob : s.messages.length ≤ s.current_query_index) :
    (∀ m, (userMessages s.messages).getLast? = some m →
      selectQuestion s.current_query_index s.messages = some m.content) ∧
    ((userMessages s.messages).getLast? = none →
      selectQuestion s.current_query_index s.messages = lastContent s.messages ∧
      (lastContent s.messages).isSome) ∧
    (∀ ev : String → String → Bool × String, (evaluateDocuments ev s).isSome) ∧
    (∀ synth : String → String → String, (synthesizeAnswer synth s).isSome) ∧
    (∀ rw : String → String → String → String, (queryRewriter rw s).isSome) := by
  have hnlt : ¬ s.current_query_index < s.messages.length := by omega
  obtain ⟨q, hq⟩ := @selectQuestion_isSome s.current_query_index s.messages hne
  obtain ⟨docs, hdocs⟩ := lastContent_isSome hne
  refine ⟨?_, ?_, ?_, ?_, ?_⟩
  · intro m hm
    simp [selectQuestion, hnlt, hm]
  · intro hm
    refine ⟨by simp [selectQuestion, hnlt, hm], by simp [hdocs]⟩
  · intro ev
    by_cases hr : s.max_retries ≤ s.retry_count
    · simp [evaluateDocuments, hr]
    · simp [evaluateDocuments, hr, hq, hdocs]
  · intro synth
    simp [synthesizeAnswer, hq, hdocs]
  · intro rw
    simp [queryRewriter, hq, hdocs]

/-- C9 witness: a state whose index 5 is past its two messages, with no
user-role message present, falling back to the last message's content. -/
theorem c9_out_of_range_witness :
    (([⟨Role.tool, "t1"⟩, ⟨Role.tool, "t2"⟩] : List Message) ≠ [] ∧
     ([⟨Role.tool, "t1"⟩, ⟨Role.tool, "t2"⟩] : List Message).length ≤ 5) ∧
    ((userMessages [⟨Role.tool, "t1"⟩, ⟨Role.tool, "t2"⟩]).getLast? = none →
      selectQuestion 5 [⟨Role.tool, "t1"⟩, ⟨Role.tool, "t2"⟩] =
        lastContent [⟨Role.tool, "t1"⟩, ⟨Role.tool, "t2"⟩] ∧
      (lastContent [⟨Role.tool, "t1"⟩, ⟨Role.tool, "t2"⟩]).isSome) :=
  ⟨⟨by decide, by decide⟩,
   (c9_out_of_range_index_fallback
     { messages := [⟨Role.tool, "t1"⟩, ⟨Role.tool, "t2"⟩], feedback := "",
       is_sufficient := false, retry_count := 0, max_retries := 3,
       current_query_index := 5 }
     (by decide) (by decide)).2.1⟩

/-- A history whose entries carry user/assistant roles converts
one-to-one into messages. -/
theorem convertHistory_length {h : List HistEntry}
    (hr : ∀ e ∈ h, e.role = "user" ∨ e.role = "assistant") :
    (convertHistory h).length = h.length := by
  induction h with
  | nil => rfl
  | cons a t ih =>
      have ha := hr a (List.mem_cons_self a t)
      have ht : ∀ e ∈ t, e.role = "user" ∨ e.role = "assistant" :=
        fun e he => hr e (List.mem_cons_of_mem a he)
      have ih' := ih ht
      rcases ha with ha | ha <;> simp_all [convertHistory, List.filterMap_cons]

/-- The element at the boundary position of `l₁ ++ [m] ++ l₂`. -/
theorem get?_append_middle (l₁ : List Message) (m : Message)
    (l₂ : List Message) :
    ((l₁ ++ [m]) ++ l₂).get? l₁.length = some m := by
  rw [List.append_assoc, List.get?_eq_getElem?,
    List.getElem?_append_right (Nat.le_refl _)]
  simp

/-- C2: `process_message` records `current_query_index` as the length of
the (user/assistant-role) prior history — the position of the newly
appended query — and on every later message list extending the initial
one, the query selection used by evaluation and synthesis still reads
exactly that fixed position, so both steps consume the original query and
not the latest message. -/
theorem c2_query_index_fixed_at_append_position (message : String)
    (history : List HistEntry)
    (hroles : ∀ e ∈ history, e.role = "user" ∨ e.role = "assistant")
    (tail : List Message) :
    (ragInitialState message history).current_query_index = history.length ∧
    (ragInitialState message history).messages.get?
        (ragInitialState message history).current_query_index =
      some ⟨Role.user, message⟩ ∧
    selectQuestion (ragInitialState message history).current_query_index
        ((ragInitialState message history).messages ++ tail) = some message ∧
    (∀ synth fb suf rc mr,
      ∃ docs,
        lastContent ((ragInitialState message history).messages ++ tail) =
          some docs ∧
        synthesizeAnswer synth
          { messages := (ragInitialState message history).messages ++ tail,
            feedback := fb, is_sufficient := suf, retry_count := rc,
            max_retries := mr,
            current_query_index :=
              (ragInitialState message history).current_query_index } =
          some { messages := [⟨Role.assistant, synth message docs⟩] }) ∧
    (∀ (ev : String → String → Bool × String) fb suf rc mr, rc < mr →
      ∃ docs,
        lastContent ((ragInitialState message history).messages ++ tail) =
          some docs ∧
        evaluateDocuments ev
          { messages := (ragInitialState message history).messages ++ tail,
            feedback := fb, is_sufficient := suf, retry_count := rc,
            max_retries := mr,
            current_query_index :=
              (ragInitialState message history).current_query_index } =
          some { is_sufficient := some (ev message docs).1,
                 feedback := some (ev message docs).2 }) := by
  have hlen := convertHistory_length hroles
  have hidx : (ragInitialState message history).current_query_index =
      (convertHistory history).length := rfl
  have hmsgs : (ragInitialState message history).messages =
      convertHistory history ++ [⟨Role.user, message⟩] := rfl
  have hextne : (ragInitialState message history).messages ++ tail ≠ [] := by
    simp [hmsgs]
  have hget : ((ragInitialState message history).messages ++ tail).get?
      (convertHistory history).length = some ⟨Role.user, message⟩ := by
    rw [hmsgs]; exact get?_append_middle _ _ _
  have hlt : (convertHistory history).length <
      ((ragInitialState message history).messages ++ tail).length := by
    simp [hmsgs]
  have hsel : selectQuestion (ragInitialState message history).current_query_index
      ((ragInitialState message history).messages ++ tail) = some message := by
    rw [hidx]
    unfold selectQuestion
    rw [if_pos hlt]
    rw [List.get?_eq_getElem?] at hget
    simp [hget]
  obtain ⟨docs, hdocs⟩ := lastContent_isSome hextne
  refine ⟨hidx.trans hlen, ?_, hsel, ?_, ?_⟩
  · rw [hidx, hmsgs]
    have hmid := get?_append_middle (convertHistory history) ⟨Role.user, message⟩ []
    rw [List.append_nil] at hmid
    exact hmid
  · intro synth fb suf rc mr
    exact ⟨docs, hdocs, by simp [synthesizeAnswer, hsel, hdocs]⟩
  · intro ev fb suf rc mr hrc
    have hnot : ¬ (mr ≤ rc) := by omega
    exact ⟨docs, hdocs, by simp [evaluateDocuments, hnot, hsel, hdocs]⟩

/-- C2 witness: two prior turns (history length 2), the recorded index 2,
and two appended later messages; selection still reads the original
query. -/
theorem c2_query_index_witness :
    (∀ e ∈ [(⟨"user", "h1"⟩ : HistEntry), ⟨"assistant", "h2"⟩],
      e.role = "user" ∨ e.role = "assistant") ∧
    (ragInitialState "the query" [⟨"user", "h1"⟩, ⟨"assistant", "h2"⟩]).current_query_index =
      ([(⟨"user", "h1"⟩ : HistEntry), ⟨"assistant", "h2"⟩] : List HistEntry).length ∧
    selectQuestion
      (ragInitialState "the query" [⟨"user", "h1"⟩, ⟨"assistant", "h2"⟩]).current_query_index
      ((ragInitialState "the query" [⟨"user", "h1"⟩, ⟨"assistant", "h2"⟩]).messages ++
        [⟨Role.assistant, "rewritten"⟩, ⟨Role.tool, "docs"⟩]) = some "the query" :=
  ⟨by decide,
   (c2_query_index_fixed_at_append_position "the query"
      [⟨"user", "h1"⟩, ⟨"assistant", "h2"⟩] (by decide)
      [⟨Role.assistant, "rewritten"⟩, ⟨Role.tool, "docs"⟩]).1,
   (c2_query_index_fixed_at_append_position "the query"
      [⟨"user", "h1"⟩, ⟨"assistant", "h2"⟩] (by decide)
      [⟨Role.assistant, "rewritten"⟩, ⟨Role.tool, "docs"⟩]).2.2.1⟩

/-- C3: a specialist-research invocation on a state whose question index
is in range advances the index by exactly one (question count unchanged);
an invocation with the index past the question list returns the empty
update and the merged state is unchanged; consequently the index never
exceeds the question count. -/
theorem c3_research_index_monotone (agent : String → String → String)
    (s : ResearchState) (p : ResearchPlan) (hp : s.research_plan = some p)
    (r : Report) (hr : s.report = some r)
    (hlen : r.detailed_analysis.length = p.questions.length) :
    (p.current_question_index < p.questions.length →
      (specializedResearchNode agent s).isSome ∧
      ∀ u, specializedResearchNode agent s = some u →
        ∃ p', u.research_plan = some p' ∧
          p'.current_question_index = p.current_question_index + 1 ∧
          p'.questions.length = p.questions.length) ∧
    (p.questions.length ≤ p.current_question_index →
      specializedResearchNode agent s = some {} ∧
      mergeResearch s {} = s) ∧
    (∀ u, specializedResearchNode agent s = some u →
      ∀ p', (mergeResearch s u).research_plan = some p' →
        p.current_question_index ≤ p.questions.length →
        p'.current_question_index ≤ p'.questions.length) := by
  by_cases h : p.current_question_index < p.questions.length
  · have hidx : p.current_question_index < r.detailed_analysis.length := by omega
    have hentry : r.detailed_analysis[p.current_question_index]? =
        some (r.detailed_analysis.get ⟨p.current_question_index, hidx⟩) := by
      rw [List.getElem?_eq_getElem hidx]; rfl
    have hfirst : (specializedResearchNode agent s).isSome ∧
        ∀ u, specializedResearchNode agent s = some u →
          ∃ p', u.research_plan = some p' ∧
            p'.current_question_index = p.current_question_index + 1 ∧
            p'.questions.length = p.questions.length := by
      constructor
      · simp [specializedResearchNode, hp, hr, h, hentry]
      · intro u hu
        simp [specializedResearchNode, hp, hr, h, hentry] at hu
        subst hu
        exact ⟨_, rfl, rfl, by simp⟩
    refine ⟨fun _ => hfirst, fun hc => absurd h (by omega), ?_⟩
    intro u hu p' hp' _
    obtain ⟨p'', hp'', hcnt, hqlen⟩ := hfirst.2 u hu
    have : (mergeResearch s u).research_plan = some p'' := by
      simp [mergeResearch, hp'']
    rw [this] at hp'
    cases hp'
    omega
  · have hnode : specializedResearchNode agent s = some {} := by
      simp [specializedResearchNode, hp, h]
    have hmerge : mergeResearch s {} = s := by
      obtain ⟨ms, rp, rep, ns⟩ := s
      simp [mergeResearch]
    refine ⟨fun hc => absurd hc h, fun _ => ⟨hnode, hmerge⟩, ?_⟩
    intro u hu p' hp' hle
    rw [hnode] at hu
    cases hu
    rw [hmerge] at hp'
    rw [hp] at hp'
    cases hp'
    omega

/-- C3 witness: with one of two questions done (index 1), the research
step succeeds and moves the index to 2; the resulting plan keeps both
questions. -/
theorem c3_research_index_witness :
    (1 : Nat) < 2 ∧
    ((specializedResearchNode (fun t d => t ++ d)
        { messages := [⟨Role.user, "topic"⟩],
          research_plan := some ⟨"topic", [⟨"Q1", "d1", true⟩, ⟨"Q2", "d2", false⟩], 1⟩,
          report := some { detailed_analysis := [⟨"Q1", some "done", []⟩, ⟨"Q2", none, []⟩] },
          next_step := "research" }).isSome ∧
      ∀ u, specializedResearchNode (fun t d => t ++ d)
        { messages := [⟨Role.user, "topic"⟩],
          research_plan := some ⟨"topic", [⟨"Q1", "d1", true⟩, ⟨"Q2", "d2", false⟩], 1⟩,
          report := some { detailed_analysis := [⟨"Q1", some "done", []⟩, ⟨"Q2", none, []⟩] },
          next_step := "research" } = some u →
        ∃ p', u.research_plan = some p' ∧
          p'.current_question_index = 1 + 1 ∧
          p'.questions.length = 2) :=
  ⟨by decide,
   (c3_research_index_monotone (fun t d => t ++ d)
      { messages := [⟨Role.user, "topic"⟩],
        research_plan := some ⟨"topic", [⟨"Q1", "d1", true⟩, ⟨"Q2", "d2", false⟩], 1⟩,
        report := some { detailed_analysis := [⟨"Q1", some "done", []⟩, ⟨"Q2", none, []⟩] },
        next_step := "research" }
      ⟨"topic", [⟨"Q1", "d1", true⟩, ⟨"Q2", "d2", false⟩], 1⟩ rfl
      { detailed_analysis := [⟨"Q1", some "done", []⟩, ⟨"Q2", none, []⟩] } rfl
      (by decide)).1 (by decide)⟩

/-- C7: when the finalizer delegate's output splits into fewer than three
blank-line-separated parts, the summary/findings/limitations fields stay
absent, the node still succeeds and returns the formatted report message,
whose formatted text shows the "N/A" placeholder for those fields. -/
theorem c7_finalizer_short_output_placeholder
    (finalize : String → String → String) (s : ResearchState)
    (p : ResearchPlan) (hp : s.research_plan = some p)
    (r : Report) (hr : s.report = some r)
    (hsum : r.executive_summary = none) (hkey : r.key_findings = none)
    (hlim : r.limitations = none)
    (hsplit : (pySplit (finalize p.topic (detailedAnalysisText r)) "\n\n").length < 3) :
    finalizerNode finalize s =
      some { messages := [formatReport r], report := some r } ∧
    (∀ u, finalizerNode finalize s = some u →
      (mergeResearch s u).report = some r) ∧
    (formatReport r).content =
      String.intercalate "\n\n"
        (["# Research Report\n", "## Executive Summary\nN/A",
          "## Key Findings\nN/A", "## Detailed Analysis"]
          ++ r.detailed_analysis.flatMap entryBlocks
          ++ ["## Limitations and Further Research\nN/A"]) := by
  have hnot : ¬ 3 ≤ (pySplit (finalize p.topic (detailedAnalysisText r)) "\n\n").length := by
    omega
  have hnode : finalizerNode finalize s =
      some { messages := [formatReport r], report := some r } := by
    simp [finalizerNode, hp, hr, hnot]
  refine ⟨hnode, ?_, ?_⟩
  · intro u hu
    rw [hnode] at hu
    cases hu
    simp [mergeResearch]
  · simp [formatReport, hsum, hkey, hlim, orNA]

/-- C7 witness: a delegate output of just two blank-line-separated parts,
a one-section report; the node succeeds and the formatted text keeps
"N/A" for summary, findings and limitations. -/
theorem c7_finalizer_short_output_witness :
    ((pySplit ((fun _ _ => "part one\n\npart two") "t"
        (detailedAnalysisText { detailed_analysis := [⟨"Q1", some "body", []⟩] })) "\n\n").length < 3) ∧
    finalizerNode (fun _ _ => "part one\n\npart two")
      { messages := [⟨Role.user, "t"⟩],
        research_plan := some ⟨"t", [⟨"Q1", "d1", true⟩], 1⟩,
        report := some { detailed_analysis := [⟨"Q1", some "body", []⟩] },
        next_step := "finalize" } =
      some { messages := [formatReport { detailed_analysis := [⟨"Q1", some "body", []⟩] }],
             report := some { detailed_analysis := [⟨"Q1", some "body", []⟩] } } :=
  ⟨by decide,
   (c7_finalizer_short_output_placeholder (fun _ _ => "part one\n\npart two")
      { messages := [⟨Role.user, "t"⟩],
        research_plan := some ⟨"t", [⟨"Q1", "d1", true⟩], 1⟩,
        report := some { detailed_analysis := [⟨"Q1", some "body", []⟩] },
        next_step := "finalize" }
      ⟨"t", [⟨"Q1", "d1", true⟩], 1⟩ rfl
      { detailed_analysis := [⟨"Q1", some "body", []⟩] } rfl rfl rfl rfl
      (by decide)).1⟩

/-- The evaluator node always succeeds on a state with a plan and touches
neither the plan nor the report. -/
theorem evaluatorNode_preserves (s : ResearchState) (p : ResearchPlan)
    (hp : s.research_plan = some p) :
    ∃ v, evaluatorNode s = some v ∧
      (mergeResearch s v).research_plan = s.research_plan ∧
      (mergeResearch s v).report = s.report := by
  by_cases h : p.current_question_index < p.questions.length
  · refine ⟨{ messages := [⟨Role.assistant, evalMoveMessage (p.questions.get ⟨p.current_question_index, h⟩).title⟩], next_step := some "research" }, ?_, ?_, ?_⟩
    · simp [evaluatorNode, hp, h]
    · simp [mergeResearch]
    · simp [mergeResearch]
  · refine ⟨{ messages := [⟨Role.assistant, evalDoneMessage⟩], next_step := some "finalize" }, ?_, ?_, ?_⟩
    · simp [evaluatorNode, hp, h]
    · simp [mergeResearch]
    · simp [mergeResearch]

/-- One research→evaluate round preserves the loop invariant, advancing
`k` by one while filling exactly section `k`. -/
theorem researchEvalStep_preserves (agent : String → String → String)
    (qs : List ResearchQuestion) (k : Nat) (s : ResearchState)
    (hk : k < qs.length) (hinv : loopInvariant agent qs k s) :
    ∃ s', researchEvalStep agent s = some s' ∧
      loopInvariant agent qs (k + 1) s' := by
  obtain ⟨plan, report, hplan, hreport, hpidx, hplen, hrlen, hq, hr⟩ := hinv
  have hklt : k < plan.questions.length := by omega
  have hkrt : k < report.detailed_analysis.length := by omega
  have hgetq : plan.questions.get? k = some (qs.get ⟨k, hk⟩) := by
    have h0 := hq k
    rw [List.get?_eq_get hk] at h0
    simpa using h0
  have hgetq' : plan.questions.get ⟨k, hklt⟩ = qs.get ⟨k, hk⟩ := by
    have h1 := List.get?_eq_get hklt
    rw [hgetq] at h1
    exact (Option.some.inj h1).symm
  have hgetr : report.detailed_analysis.get? k = some (emptyEntry (qs.get ⟨k, hk⟩)) := by
    have h0 := hr k
    rw [List.get?_eq_get hk] at h0
    simpa using h0
  have hnode : specializedResearchNode agent s =
      some (stepUpdate agent plan report k (qs.get ⟨k, hk⟩)) := by
    rw [List.get?_eq_getElem?] at hgetr
    have hgetel : plan.questions[k] = qs[k] := by
      rw [List.get_eq_getElem, List.get_eq_getElem] at hgetq'
      exact hgetq'
    simp [specializedResearchNode, hplan, hreport, hpidx, hklt, hgetel, hgetr,
      stepUpdate, stepPlan, stepReport, filledEntry, emptyEntry]
  have hs1p : (mergeResearch s (stepUpdate agent plan report k (qs.get ⟨k, hk⟩))).research_plan =
      some (stepPlan plan k (qs.get ⟨k, hk⟩)) := by
    simp [mergeResearch, stepUpdate]
  obtain ⟨v, hv, hvp, hvr⟩ := evaluatorNode_preserves
    (mergeResearch s (stepUpdate agent plan report k (qs.get ⟨k, hk⟩)))
    (stepPlan plan k (qs.get ⟨k, hk⟩)) hs1p
  refine ⟨mergeResearch (mergeResearch s (stepUpdate agent plan report k (qs.get ⟨k, hk⟩))) v, ?_, ?_⟩
  · simp only [researchEvalStep, hnode, Option.bind_eq_bind, Option.some_bind, hv,
      Option.pure_def]
  · refine ⟨stepPlan plan k (qs.get ⟨k, hk⟩),
      stepReport agent report k (qs.get ⟨k, hk⟩), ?_, ?_, rfl, ?_, ?_, ?_, ?_⟩
    · rw [hvp, hs1p]
    · rw [hvr]; simp [mergeResearch, stepUpdate]
    · simp [stepPlan, hplen]
    · simp [stepReport, hrlen]
    · intro i
      simp only [stepPlan]
      by_cases hik : i = k
      · subst hik
        rw [List.get?_set_eq, hgetq, List.get?_eq_get hk]
        simp
      · rw [List.get?_set_ne _ _ (fun h => hik h.symm), hq i]
        cases hqs : qs.get? i with
        | none => simp
        | some q =>
            by_cases hik2 : i < k
            · have hlt1 : i < k + 1 := by omega
              simp [hik2, hlt1]
            · have hlt1 : ¬ i < k + 1 := by omega
              simp [hik2, hlt1]
    · intro i
      simp only [stepReport]
      by_cases hik : i = k
      · subst hik
        rw [List.get?_set_eq, hgetr, List.get?_eq_get hk]
        simp
      · rw [List.get?_set_ne _ _ (fun h => hik h.symm), hr i]
        cases hqs : qs.get? i with
        | none => simp
        | some q =>
            by_cases hik2 : i < k
            · have hlt1 : i < k + 1 := by omega
              simp [hik2, hlt1]
            · have hlt1 : ¬ i < k + 1 := by omega
              simp [hik2, hlt1]

/-- Running `j` research→evaluate rounds from an invariant state reaches
the invariant `j` questions further on. -/
theorem runResearchLoop_invariant (agent : String → String → String)
    (qs : List ResearchQuestion) :
    ∀ (j k : Nat) (s : ResearchState), loopInvariant agent qs k s →
      k + j ≤ qs.length →
      ∃ s', runResearchLoop agent j s = some s' ∧
        loopInvariant agent qs (k + j) s' := by
  intro j
  induction j with
  | zero => exact fun k s h _ => ⟨s, rfl, h⟩
  | succ n ih =>
      intro k s h hle
      obtain ⟨s1, hs1, hinv1⟩ := researchEvalStep_preserves agent qs k s (by omega) h
      obtain ⟨s', hrun, hinv'⟩ := ih (k + 1) s1 hinv1 (by omega)
      refine ⟨s', ?_, ?_⟩
      · simp only [runResearchLoop, hs1, Option.bind_eq_bind, Option.some_bind, hrun]
      · have heq : k + 1 + n = k + (n + 1) := by omega
        rw [← heq]
        exact hinv'

/-- The user-role filter keeps a trailing user message last. -/
theorem userMessages_getLast_append (l : List Message) (c : String) :
    (userMessages (l ++ [⟨Role.user, c⟩])).getLast? = some ⟨Role.user, c⟩ := by
  simp [userMessages, List.filter_append]

/-- C6: the plan step creates `report.detailed_analysis` with exactly one
empty entry per planned question, and after any `k ≤ N` research rounds
the first `k` entries hold exactly the content the step at index `i`
produced for question `i` (with its extracted sources) while all later
entries are still empty — so every entry is filled exactly once, by the
invocation run at its own index, and none is skipped or overwritten. -/
theorem c6_sections_created_empty_and_filled_once (message : String)
    (history : List HistEntry) (p : ResearchPlan)
    (agent : String → String → String)
    (hidx : p.current_question_index = 0) :
    ∃ s0, afterPlanState (fun _ => p) message history = some s0 ∧
      (∃ report0, s0.report = some report0 ∧
        report0.detailed_analysis = p.questions.map emptyEntry) ∧
      (∀ k, k ≤ p.questions.length →
        ∃ sk plank reportk,
          runResearchLoop agent k s0 = some sk ∧
          sk.research_plan = some plank ∧
          sk.report = some reportk ∧
          plank.current_question_index = k ∧
          (∀ i, reportk.detailed_analysis.get? i =
            (p.questions.get? i).map
              (fun q => if i < k then filledEntry agent q else emptyEntry q))) := by
  have hmgr : researchManagerNode (fun _ => p) (researchInitialState message history) =
      some { messages := [⟨Role.assistant, planMessage p.questions.length⟩],
             research_plan := some p,
             report := some { detailed_analysis := p.questions.map emptyEntry } } := by
    simp [researchManagerNode, researchInitialState, userMessages_getLast_append]
  refine ⟨mergeResearch (researchInitialState message history)
      { messages := [⟨Role.assistant, planMessage p.questions.length⟩],
        research_plan := some p,
        report := some { detailed_analysis := p.questions.map emptyEntry } }, ?_, ?_, ?_⟩
  · simp only [afterPlanState, hmgr, Option.bind_eq_bind, Option.some_bind,
      Option.pure_def]
  · exact ⟨{ detailed_analysis := p.questions.map emptyEntry }, by simp [mergeResearch], rfl⟩
  · have hinv0 : loopInvariant agent p.questions 0
        (mergeResearch (researchInitialState message history)
          { messages := [⟨Role.assistant, planMessage p.questions.length⟩],
            research_plan := some p,
            report := some { detailed_analysis := p.questions.map emptyEntry } }) := by
      refine ⟨p, { detailed_analysis := p.questions.map emptyEntry },
        by simp [mergeResearch], by simp [mergeResearch], hidx, rfl, by simp, ?_, ?_⟩
      · intro i
        cases h : p.questions.get? i <;> simp
      · intro i
        rw [List.get?_eq_getElem?, List.get?_eq_getElem?, List.getElem?_map]
        cases h : p.questions[i]? <;> simp
    intro k hk
    obtain ⟨sk, hrun, plank, reportk, hp, hr, hpi, _, _, _, hentries⟩ :=
      runResearchLoop_invariant agent p.questions k 0 _ hinv0 (by omega)
    simp only [Nat.zero_add] at hpi hentries
    exact ⟨sk, plank, reportk, hrun, hp, hr, hpi, hentries⟩

/-- C6 witness: a concrete two-question plan; after the plan step both
report sections exist empty, and after 2 rounds both are filled with
their own question's delegate output. -/
theorem c6_sections_witness :
    (⟨"topic", [⟨"Q1", "d1", false⟩, ⟨"Q2", "d2", false⟩], 0⟩ : ResearchPlan).current_question_index = 0 ∧
    ∃ s0, afterPlanState (fun _ => (⟨"topic", [⟨"Q1", "d1", false⟩, ⟨"Q2", "d2", false⟩], 0⟩ : ResearchPlan)) "research topic" [] = some s0 ∧
      (∃ report0, s0.report = some report0 ∧
        report0.detailed_analysis =
          [⟨"Q1", "d1", false⟩, ⟨"Q2", "d2", false⟩].map emptyEntry) ∧
      (∀ k, k ≤ ([⟨"Q1", "d1", false⟩, ⟨"Q2", "d2", false⟩] : List ResearchQuestion).length →
        ∃ sk plank reportk,
          runResearchLoop (fun t d => t ++ ":" ++ d) k s0 = some sk ∧
          sk.research_plan = some plank ∧
          sk.report = some reportk ∧
          plank.current_question_index = k ∧
          (∀ i, reportk.detailed_analysis.get? i =
            (([⟨"Q1", "d1", false⟩, ⟨"Q2", "d2", false⟩] : List ResearchQuestion).get? i).map
              (fun q => if i < k then filledEntry (fun t d => t ++ ":" ++ d) q
                        else emptyEntry q))) :=
  ⟨rfl,
   c6_sections_created_empty_and_filled_once "research topic" []
     ⟨"topic", [⟨"Q1", "d1", false⟩, ⟨"Q2", "d2", false⟩], 0⟩
     (fun t d => t ++ ":" ++ d) rfl⟩

end Nexus
